import Mathlib

/-!
Verification development for the `resume_extracter` repository.

The Python sources (`resume_parser/nlp.py`, `resume_parser/schema.py`,
`app1.py`) are shallowly embedded below: Python strings become Lean
`String`s, the mutable schema dictionary becomes a `Resume` structure
passed functionally, and the concrete `re` patterns used by the code are
interpreted by a small backtracking engine (`reMatches`) that follows
Python `re` semantics: leftmost match position, left-first alternation,
greedy quantifiers with backtracking, capture groups, word boundaries.
All quantifiers in the embedded patterns apply to single character
classes, so the engine needs no general star and is structurally
terminating.
-/

set_option maxRecDepth 10000

namespace ResumeX

/-! ## Python-style string utilities -/

/-- Python `\s` whitespace class over ASCII: space, tab, newline,
carriage return, vertical tab, form feed. -/
def isSpaceChar (c : Char) : Bool :=
  c == ' ' || c == '\t' || c == '\n' || c == '\r' || c == '\x0b' || c == '\x0c'

/-- Python `\w` word character (ASCII model), used for `\b` boundaries. -/
def isWordChar (c : Char) : Bool :=
  c.isAlphanum || c == '_'

/-- `str.lower()` (ASCII model). -/
def pyLower (s : String) : String :=
  String.mk (s.toList.map Char.toLower)

/-- Drop trailing characters satisfying `p`. -/
def dropTrail (p : Char → Bool) (l : List Char) : List Char :=
  (l.reverse.dropWhile p).reverse

/-- Strip characters satisfying `p` from both ends (Python `str.strip(chars)`). -/
def stripChars (p : Char → Bool) (l : List Char) : List Char :=
  dropTrail p (l.dropWhile p)

/-- Python `str.strip()` with no arguments: strip whitespace at both ends. -/
def pyStrip (s : String) : String :=
  String.mk (stripChars isSpaceChar s.toList)

/-- Split a character list at newline characters, keeping empty pieces. -/
def splitOnNL : List Char → List (List Char)
  | [] => [[]]
  | c :: rest =>
    if c == '\n' then [] :: splitOnNL rest
    else
      match splitOnNL rest with
      | [] => [[c]]
      | w :: ws => (c :: w) :: ws

/-- Python `str.splitlines()` (modelling `\n` as the line separator):
the empty string gives `[]`, and a trailing newline does not produce a
trailing empty line. -/
def splitlines (s : String) : List String :=
  match s.toList with
  | [] => []
  | cs =>
    let ps := splitOnNL cs
    let ps := if cs.getLast? == some '\n' then ps.dropLast else ps
    ps.map String.mk

/-- Python `"\n".join(lines)`. -/
def joinNL (lines : List String) : String :=
  String.intercalate "\n" lines

/-- Python whitespace `str.split()` helper: accumulates the current word
(reversed) and splits at whitespace runs, producing no empty words. -/
def splitWsAux : List Char → List Char → List (List Char)
  | [], cur => if cur.isEmpty then [] else [cur.reverse]
  | c :: rest, cur =>
    if isSpaceChar c then
      if cur.isEmpty then splitWsAux rest [] else cur.reverse :: splitWsAux rest []
    else splitWsAux rest (c :: cur)

/-- Python `str.split()` with no arguments. -/
def pySplitWs (s : String) : List String :=
  (splitWsAux s.toList []).map String.mk

/-- Python string truthiness choice `a or b` for strings. -/
def pyOr (a b : String) : String :=
  if a = "" then b else a

/-- Python `sub in hay` for strings, on character lists. -/
def isSub (sub : List Char) : List Char → Bool
  | [] => sub.isEmpty
  | c :: rest => sub.isPrefixOf (c :: rest) || isSub sub rest

/-- Python `sub in hay` for `String`s. -/
def strIn (sub hay : String) : Bool :=
  isSub sub.toList hay.toList

/-- Index of the first list element satisfying `p` (the `for`-loop
search pattern of the Python sources). -/
def firstIdxWhere (p : α → Bool) : List α → Option Nat
  | [] => none
  | a :: rest => if p a then some 0 else (firstIdxWhere p rest).map (· + 1)

/-- Python `str.isupper()` (ASCII model): at least one cased character
and no lowercase cased character. -/
def pyIsUpper (s : String) : Bool :=
  s.toList.any (·.isAlpha) && s.toList.all (fun c => !c.isAlpha || c.isUpper)

/-- Number of decimal digits in a string (`len(re.sub(r"\D", "", s))`). -/
def countDigits (s : String) : Nat :=
  (s.toList.filter Char.isDigit).length

/-! ## A tiny backtracking regex engine with Python `re` semantics

Only the constructs actually used by the repository's patterns are
represented.  Every repetition in those patterns applies to a single
character class, so repetition is a primitive over classes
(`repCls p lo hi?` for `p{lo,}` / `p{lo,hi}`), and the matcher is
structurally recursive. -/

/-- One way a pattern can match at the current position: the consumed
characters, the captures `(groupIndex, capturedChars)`, and the rest. -/
structure MRes where
  consumed : List Char
  caps : List (Nat × List Char)
  rest : List Char

inductive RE where
  | eps
  | cls (p : Char → Bool)
  | lit (cs : List Char)
  | seq (a b : RE)
  | alt (a b : RE)
  | opt (a : RE)
  | repCls (p : Char → Bool) (lo : Nat) (hi : Option Nat)
  | group (n : Nat) (a : RE)
  | wb
  | eos

/-- Greedy alternatives of a character-class repetition: take as many
`p`-characters as allowed, longest split first, never fewer than `lo`. -/
def repAlts (p : Char → Bool) (lo : Nat) (hi : Option Nat) (s : List Char) : List MRes :=
  let m := (s.takeWhile p).length
  let mh := match hi with | none => m | some h => min m h
  if lo ≤ mh then
    (List.range (mh + 1 - lo)).map (fun i => ⟨s.take (mh - i), [], s.drop (mh - i)⟩)
  else []

/-- The character preceding the rest of the input after consuming
`consumed`, given the character `prev` that preceded the match. -/
def nextPrev (consumed : List Char) (prev : Option Char) : Option Char :=
  match consumed.getLast? with
  | some c => some c
  | none => prev

/-- All ways `re` can match a prefix of `s`, in Python backtracking
preference order (first element = the match Python commits to).  `prev`
is the character just before `s` in the original text (for `\b`). -/
def reMatches : RE → List Char → Option Char → List MRes
  | .eps, s, _ => [⟨[], [], s⟩]
  | .cls p, s, _ =>
    match s with
    | [] => []
    | c :: rest => if p c then [⟨[c], [], rest⟩] else []
  | .lit cs, s, _ =>
    if cs.isPrefixOf s then [⟨cs, [], s.drop cs.length⟩] else []
  | .seq a b, s, prev =>
    (reMatches a s prev).flatMap (fun h1 =>
      (reMatches b h1.rest (nextPrev h1.consumed prev)).map (fun h2 =>
        ⟨h1.consumed ++ h2.consumed, h1.caps ++ h2.caps, h2.rest⟩))
  | .alt a b, s, prev => reMatches a s prev ++ reMatches b s prev
  | .opt a, s, prev => reMatches a s prev ++ [⟨[], [], s⟩]
  | .repCls p lo hi, s, _ => repAlts p lo hi s
  | .group n a, s, prev =>
    (reMatches a s prev).map (fun h => ⟨h.consumed, (n, h.consumed) :: h.caps, h.rest⟩)
  | .wb, s, prev =>
    let before := match prev with | some c => isWordChar c | none => false
    let after := match s with | c :: _ => isWordChar c | [] => false
    if before != after then [⟨[], [], s⟩] else []
  | .eos, s, _ =>
    match s with
    | [] => [⟨[], [], []⟩]
    | _ :: _ => []

/-- A search hit: the skipped prefix, the match, its captures, the rest. -/
structure SHit where
  pre : List Char
  consumed : List Char
  caps : List (Nat × List Char)
  rest : List Char

/-- Python `re.search` scanning: try to match at each position from left
to right, returning the first position's first match. -/
def searchFrom (re : RE) : List Char → Option Char → Option SHit
  | [], prev =>
    (reMatches re [] prev).head?.map (fun h => ⟨[], h.consumed, h.caps, h.rest⟩)
  | c :: rest, prev =>
    match (reMatches re (c :: rest) prev).head? with
    | some h => some ⟨[], h.consumed, h.caps, h.rest⟩
    | none =>
      (searchFrom re rest (some c)).map
        (fun h => ⟨c :: h.pre, h.consumed, h.caps, h.rest⟩)

/-- `re.search(pattern, s)`. -/
def searchS (re : RE) (s : String) : Option SHit :=
  searchFrom re s.toList none

/-- Whether `re.search(pattern, s)` succeeds. -/
def searchB (re : RE) (s : String) : Bool :=
  (searchS re s).isSome

/-- Captured text of group `n` (empty for a non-participating group,
matching Python `findall` tuple semantics). -/
def capGet (caps : List (Nat × List Char)) (n : Nat) : List Char :=
  match caps.find? (fun kv => kv.1 == n) with
  | some kv => kv.2
  | none => []

/-- `m.group(0)` of a search, or `none`. -/
def searchG0 (re : RE) (s : String) : Option String :=
  (searchS re s).map (fun h => String.mk h.consumed)

/-- `m.group(1)` of a search, or `none`. -/
def searchG1 (re : RE) (s : String) : Option String :=
  (searchS re s).map (fun h => String.mk (capGet h.caps 1))

/-- `re.findall` worker: repeatedly search, resuming after each match;
fuel bounds the recursion (chosen `≥ length + 1` by the wrapper). -/
def findallAux (re : RE) : Nat → List Char → Option Char → List SHit
  | 0, _, _ => []
  | fuel + 1, s, prev =>
    match searchFrom re s prev with
    | none => []
    | some h =>
      match h.consumed with
      | [] =>
        match h.rest with
        | [] => [h]
        | c :: r2 => h :: findallAux re fuel r2 (some c)
      | _ :: _ =>
        h :: findallAux re fuel h.rest (nextPrev h.consumed (nextPrev h.pre prev))

/-- `re.findall(pattern, s)` as a list of hits (with their captures). -/
def findallRE (re : RE) (s : String) : List SHit :=
  findallAux re (s.toList.length + 1) s.toList none

/-- Literal pattern. -/
def litS (s : String) : RE := .lit s.toList

/-! ## The concrete patterns of the repository -/

def isDigitC (c : Char) : Bool := c.isDigit

/-- `[-.\s]` from `app1.PHONE_REGEX`. -/
def sepCls (c : Char) : Bool := c == '-' || c == '.' || isSpaceChar c

/-- `[:\-]` from `nlp.grab_score`. -/
def dashColon (c : Char) : Bool := c == ':' || c == '-'

/-- `[a-zA-Z0-9._%+-]` (email local part). -/
def emailLocalC (c : Char) : Bool :=
  c.isAlphanum || c == '.' || c == '_' || c == '%' || c == '+' || c == '-'

/-- `[a-zA-Z0-9.-]` (email domain). -/
def emailDomC (c : Char) : Bool :=
  c.isAlphanum || c == '.' || c == '-'

/-- `[a-zA-Z0-9._%+-]+@[a-zA-Z0-9.-]+\.[a-zA-Z]{2,}` (both modules). -/
def EMAIL_RE : RE :=
  .seq (.repCls emailLocalC 1 none)
    (.seq (.cls (· == '@'))
      (.seq (.repCls emailDomC 1 none)
        (.seq (.cls (· == '.')) (.repCls (·.isAlpha) 2 none))))

/-- `(https?://[^\s]+|www\.[^\s]+)` (`app1.URL_REGEX`). -/
def URL_RE : RE :=
  .group 1
    (.alt
      (.seq (litS "http")
        (.seq (.opt (.cls (· == 's')))
          (.seq (litS "://") (.repCls (fun c => !isSpaceChar c) 1 none))))
      (.seq (litS "www.") (.repCls (fun c => !isSpaceChar c) 1 none)))

/-- `\+?\d[\d\s\-]{8,}\d` (`nlp.extract_phone`). -/
def NLP_PHONE_RE : RE :=
  .seq (.opt (.cls (· == '+')))
    (.seq (.cls isDigitC)
      (.seq (.repCls (fun c => isDigitC c || isSpaceChar c || c == '-') 8 none)
        (.cls isDigitC)))

/-- `(\+?\d{1,3}[-.\s]?)?(\d{3,5}[-.\s]?\d{3,5}[-.\s]?\d{3,5})`
(`app1.PHONE_REGEX`). -/
def APP1_PHONE_RE : RE :=
  .seq
    (.opt (.group 1
      (.seq (.opt (.cls (· == '+')))
        (.seq (.repCls isDigitC 1 (some 3)) (.opt (.cls sepCls))))))
    (.group 2
      (.seq (.repCls isDigitC 3 (some 5))
        (.seq (.opt (.cls sepCls))
          (.seq (.repCls isDigitC 3 (some 5))
            (.seq (.opt (.cls sepCls)) (.repCls isDigitC 3 (some 5)))))))

/-- `\b\d{2,3}\.?(\d+)?\s*%` (percentage grade, `nlp.parse_education`). -/
def PERC_RE : RE :=
  .seq .wb
    (.seq (.repCls isDigitC 2 (some 3))
      (.seq (.opt (.cls (· == '.')))
        (.seq (.opt (.group 1 (.repCls isDigitC 1 none)))
          (.seq (.repCls isSpaceChar 0 none) (.cls (· == '%'))))))

/-- `\b\d\.\d{1,2}\b` (GPA grade, `nlp.parse_education`). -/
def CGPA_RE : RE :=
  .seq .wb
    (.seq (.cls isDigitC)
      (.seq (.cls (· == '.'))
        (.seq (.repCls isDigitC 1 (some 2)) .wb)))

/-- `\b(19|20)\d{2}\b` (graduation year, `nlp.parse_education`). -/
def YEAR_RE : RE :=
  .seq .wb
    (.seq (.group 1 (.alt (litS "19") (litS "20")))
      (.seq (.repCls isDigitC 2 (some 2)) .wb))

/-- `\(([^)]+)\)` (major in parentheses, `nlp.parse_education`). -/
def MAJOR_RE : RE :=
  .seq (.cls (· == '('))
    (.seq (.group 1 (.repCls (fun c => c != ')') 1 none)) (.cls (· == ')')))

/-- `{keyword}\s*[:\-]\s*(\d+)` (`nlp.grab_score`). -/
def scoreRE (kw : String) : RE :=
  .seq (.lit kw.toList)
    (.seq (.repCls isSpaceChar 0 none)
      (.seq (.cls dashColon)
        (.seq (.repCls isSpaceChar 0 none)
          (.group 1 (.repCls isDigitC 1 none)))))

/-- `^[A-Za-z ]+[:]\s*$` tested with `re.match` (`nlp.find_section_block`). -/
def COLON_HEAD_RE : RE :=
  .seq (.repCls (fun c => c.isAlpha || c == ' ') 1 none)
    (.seq (.cls (· == ':')) (.seq (.repCls isSpaceChar 0 none) .eos))

/-! ## `resume_parser/schema.py` -/

/-- The `testScores` sub-dictionary of `BASE_RESUME_SCHEMA`. -/
@[ext]
structure TestScores where
  sat : String
  act : String
  gre : String
  gmat : String
  toefl : String
  ielts : String
deriving DecidableEq

/-- The fixed resume schema `BASE_RESUME_SCHEMA` of `schema.py`, one
field per dictionary key. -/
@[ext]
structure Resume where
  name : String
  email : String
  phoneNumber : String
  highSchoolName : String
  highSchoolAddress : String
  highSchoolGpaOrPercentage : String
  highSchoolGpaScale : String
  highSchoolBoard : String
  highSchoolGraduationYear : String
  ugCollegeName : String
  ugCollegeAddress : String
  ugCollegeGpaOrPercentage : String
  ugCollegeGpaScale : String
  ugUniversity : String
  ugGraduationYear : String
  ugDegree : String
  ugMajor : String
  pgCollegeName : String
  pgCollegeAddress : String
  pgCollegeGpaOrPercentage : String
  pgCollegeGpaScale : String
  pgUniversity : String
  pgGraduationYear : String
  pgDegree : String
  pgMajor : String
  certifications : List String
  extraCurricularActivities : List String
  workExperience : List String
  researchPublications : List String
  testScores : TestScores
  achievements : List String
  skills : List String
deriving DecidableEq

/-- `empty_resume_schema()`: a fresh all-empty record. -/
def empty_resume_schema : Resume :=
  { name := "", email := "", phoneNumber := ""
    highSchoolName := "", highSchoolAddress := "", highSchoolGpaOrPercentage := ""
    highSchoolGpaScale := "", highSchoolBoard := "", highSchoolGraduationYear := ""
    ugCollegeName := "", ugCollegeAddress := "", ugCollegeGpaOrPercentage := ""
    ugCollegeGpaScale := "", ugUniversity := "", ugGraduationYear := ""
    ugDegree := "", ugMajor := ""
    pgCollegeName := "", pgCollegeAddress := "", pgCollegeGpaOrPercentage := ""
    pgCollegeGpaScale := "", pgUniversity := "", pgGraduationYear := ""
    pgDegree := "", pgMajor := ""
    certifications := [], extraCurricularActivities := [], workExperience := []
    researchPublications := []
    testScores := { sat := "", act := "", gre := "", gmat := "", toefl := "", ielts := "" }
    achievements := [], skills := [] }

/-- A field value of the schema dictionary: string, list of strings, or
the test-score map. -/
inductive FieldVal where
  | s (v : String)
  | l (v : List String)
  | m (v : TestScores)

/-- The schema record as the key/value pair list of the Python
dictionary, in `BASE_RESUME_SCHEMA` key order. -/
def resumePairs (r : Resume) : List (String × FieldVal) :=
  [("name", .s r.name), ("email", .s r.email), ("phoneNumber", .s r.phoneNumber),
   ("highSchoolName", .s r.highSchoolName), ("highSchoolAddress", .s r.highSchoolAddress),
   ("highSchoolGpaOrPercentage", .s r.highSchoolGpaOrPercentage),
   ("highSchoolGpaScale", .s r.highSchoolGpaScale), ("highSchoolBoard", .s r.highSchoolBoard),
   ("highSchoolGraduationYear", .s r.highSchoolGraduationYear),
   ("ugCollegeName", .s r.ugCollegeName), ("ugCollegeAddress", .s r.ugCollegeAddress),
   ("ugCollegeGpaOrPercentage", .s r.ugCollegeGpaOrPercentage),
   ("ugCollegeGpaScale", .s r.ugCollegeGpaScale), ("ugUniversity", .s r.ugUniversity),
   ("ugGraduationYear", .s r.ugGraduationYear), ("ugDegree", .s r.ugDegree),
   ("ugMajor", .s r.ugMajor),
   ("pgCollegeName", .s r.pgCollegeName), ("pgCollegeAddress", .s r.pgCollegeAddress),
   ("pgCollegeGpaOrPercentage", .s r.pgCollegeGpaOrPercentage),
   ("pgCollegeGpaScale", .s r.pgCollegeGpaScale), ("pgUniversity", .s r.pgUniversity),
   ("pgGraduationYear", .s r.pgGraduationYear), ("pgDegree", .s r.pgDegree),
   ("pgMajor", .s r.pgMajor),
   ("certifications", .l r.certifications),
   ("extraCurricularActivities", .l r.extraCurricularActivities),
   ("workExperience", .l r.workExperience),
   ("researchPublications", .l r.researchPublications),
   ("testScores", .m r.testScores),
   ("achievements", .l r.achievements), ("skills", .l r.skills)]

/-- The test-score map as a key/value pair list, in schema key order. -/
def tsPairs (t : TestScores) : List (String × String) :=
  [("sat", t.sat), ("act", t.act), ("gre", t.gre),
   ("gmat", t.gmat), ("toefl", t.toefl), ("ielts", t.ielts)]

/-! ## `resume_parser/nlp.py` -/

namespace Nlp

/-- `SKILLS_DB` of `nlp.py` (a Python set; listed in source order — the
output of `extract_skills` is sorted, so iteration order is irrelevant). -/
def SKILLS_DB : List String :=
  ["python", "java", "c", "c++", "c#", "javascript", "typescript",
   "html", "css", "react", "node.js", "express", "django", "flask",
   "sql", "mysql", "postgresql", "mongodb", "nosql", "oracle",
   "git", "github", "docker",
   "flutter", "dart",
   "machine learning", "deep learning", "nlp",
   "data analysis", "excel",
   "uipath", "rpa"]

/-- `extract_email`: first match of the email pattern, else `""`. -/
def extract_email (text : String) : String :=
  (searchG0 EMAIL_RE text).getD ""

/-- `extract_phone` (nlp variant): first match of
`\+?\d[\d\s\-]{8,}\d`, stripped, else `""`. -/
def extract_phone (text : String) : String :=
  match searchS NLP_PHONE_RE text with
  | some h => pyStrip (String.mk h.consumed)
  | none => ""

/-- Loop body of `extract_name`: skip lines containing `"@"` or a digit
(`re.search(r"\d", line)`); return the first line whose whitespace word
count is in `(1, 4]`. -/
def nameScan : List String → String
  | [] => ""
  | line :: rest =>
    if line.toList.contains '@' then nameScan rest
    else if line.toList.any isDigitC then nameScan rest
    else
      let words := pySplitWs line
      if 1 < words.length ∧ words.length ≤ 4 then line else nameScan rest

/-- `extract_name`: look at the first 5 non-empty stripped lines. -/
def extract_name (text : String) : String :=
  let lines := ((splitlines text).map pyStrip).filter (fun l => l ≠ "")
  nameScan (lines.take 5)

/-- `re.fullmatch(rf"{re.escape(kw)}[:]?", line, re.IGNORECASE)` for an
already-lowercased `line` and lowercase keyword `kw`: the line equals
the keyword with an optional trailing colon. -/
def headKwMatch (l kw : String) : Bool :=
  l == kw || l == kw ++ ":"

/-- The "probable heading" test terminating a section in
`find_section_block`: an all-uppercase line of at most 5 words, or a
`re.match(r"^[A-Za-z ]+[:]\s*$", l)` line. -/
def isHeadingLike (l : String) : Bool :=
  (pyIsUpper l && decide ((pySplitWs l).length ≤ 5))
    || !(reMatches COLON_HEAD_RE l.toList none).isEmpty

/-- `find_section_block(text, keywords)`: find the first line that
whole-line-matches a keyword (after strip/lower), then return the lines
up to the next probable heading, joined and stripped. -/
def find_section_block (text : String) (keywords : List String) : String :=
  let lines := splitlines text
  let lowered := lines.map pyLower
  match firstIdxWhere (fun line => keywords.any (fun kw => headKwMatch (pyStrip line) kw)) lowered with
  | none => ""
  | some i =>
    let body := lines.drop (i + 1)
    let e := (firstIdxWhere (fun l => isHeadingLike (pyStrip l)) body).getD body.length
    pyStrip (joinNL (body.take e))

/-- Characters stripped from entry lines in `section_to_list`: the
Python call `line.strip(" -â€¢\t")` (a mojibake bullet), i.e. the set
`{' ', '-', 'â', '€', '¢', '\t'}`. -/
def bulletChar (c : Char) : Bool :=
  c == ' ' || c == '-' || c == 'â' || c == '€' || c == '¢' || c == '\t'

/-- `section_to_list`: non-empty lines of the section, stripped of
bullet characters. -/
def section_to_list (sectionText : String) : List String :=
  ((splitlines sectionText).map (fun l => String.mk (stripChars bulletChar l.toList))).filter
    (fun l => l ≠ "")

/-- Lexicographic order on strings by code point (Python `str` order). -/
def lexLe : List Char → List Char → Bool
  | [], _ => true
  | _ :: _, [] => false
  | a :: as, b :: bs => if a == b then lexLe as bs else decide (a < b)

/-- Python `sorted(..., key=str.lower)` comparison. -/
def lowerLe (a b : String) : Bool :=
  lexLe (pyLower a).toList (pyLower b).toList

/-- Insertion into a sorted list (helper for Python `sorted`). -/
def insSorted (le : String → String → Bool) (x : String) : List String → List String
  | [] => [x]
  | y :: ys => if le x y then x :: y :: ys else y :: insSorted le x ys

/-- Python `sorted` (insertion sort; the inputs here have no duplicate
keys, so stability is irrelevant). -/
def sortStrs (le : String → String → Bool) (l : List String) : List String :=
  l.foldr (insSorted le) []

/-- `extract_skills`: vocabulary entries occurring as substrings of the
lowercased text, sorted case-insensitively (entries of `SKILLS_DB` are
distinct, so Python's `set(found)` deduplication is a no-op). -/
def extract_skills (text : String) : List String :=
  sortStrs lowerLe (SKILLS_DB.filter (fun skill => strIn (pyLower skill) (pyLower text)))

/-- High-school keyword test of `parse_education`
(`any(k in l for k in ["10th", "x ", "ssc", "matric", "high school"])`). -/
def hsHit (l : String) : Bool :=
  ["10th", "x ", "ssc", "matric", "high school"].any (fun k => strIn k l)

/-- Undergraduate keyword test of `parse_education`. -/
def ugHit (l : String) : Bool :=
  ["b.tech", "b.e", "bsc", "bca", "b.com", "bachelor"].any (fun k => strIn k l)

/-- Postgraduate keyword test of `parse_education`. -/
def pgHit (l : String) : Bool :=
  ["m.tech", "m.e", "msc", "mca", "mba", "master"].any (fun k => strIn k l)

/-- `re.search(r"\b\d{2,3}\.?(\d+)?\s*%", line)`, `group(0)`. -/
def percSearch (line : String) : Option String := searchG0 PERC_RE line

/-- `re.search(r"\b\d\.\d{1,2}\b", line)`, `group(0)`. -/
def cgpaSearch (line : String) : Option String := searchG0 CGPA_RE line

/-- `re.search(r"\b(19|20)\d{2}\b", line)`, `group(0)`. -/
def yearSearch (line : String) : Option String := searchG0 YEAR_RE line

/-- `re.search(r"\(([^)]+)\)", line)`, `group(1)`. -/
def majorSearch (line : String) : Option String := searchG1 MAJOR_RE line

/-- The body of the `for line in lines` loop of `parse_education`:
classify the line by the `if`/`elif` keyword chain and fill the fields
of that tier exactly as the source does (name and degree through
`x or y` guards; major, grade, scale and year by plain assignment). -/
def processEduLine (schema : Resume) (line : String) : Resume :=
  let l := pyLower line
  if hsHit l then
    let s1 := { schema with highSchoolName := pyOr schema.highSchoolName line }
    let s2 :=
      match percSearch line with
      | some p =>
        { s1 with highSchoolGpaOrPercentage := p, highSchoolGpaScale := "percentage" }
      | none =>
        match cgpaSearch line with
        | some c =>
          { s1 with highSchoolGpaOrPercentage := c, highSchoolGpaScale := "cgpa" }
        | none => s1
    match yearSearch line with
    | some y => { s2 with highSchoolGraduationYear := y }
    | none => s2
  else if ugHit l then
    let s1 := { schema with
      ugCollegeName := pyOr schema.ugCollegeName line
      ugDegree := pyOr schema.ugDegree "Bachelor" }
    let s2 :=
      match majorSearch line with
      | some m => { s1 with ugMajor := m }
      | none => s1
    let s3 :=
      match percSearch line with
      | some p =>
        { s2 with ugCollegeGpaOrPercentage := p, ugCollegeGpaScale := "percentage" }
      | none =>
        match cgpaSearch line with
        | some c =>
          { s2 with ugCollegeGpaOrPercentage := c, ugCollegeGpaScale := "cgpa" }
        | none => s2
    match yearSearch line with
    | some y => { s3 with ugGraduationYear := y }
    | none => s3
  else if pgHit l then
    let s1 := { schema with
      pgCollegeName := pyOr schema.pgCollegeName line
      pgDegree := pyOr schema.pgDegree "Master" }
    let s2 :=
      match majorSearch line with
      | some m => { s1 with pgMajor := m }
      | none => s1
    let s3 :=
      match percSearch line with
      | some p =>
        { s2 with pgCollegeGpaOrPercentage := p, pgCollegeGpaScale := "percentage" }
      | none =>
        match cgpaSearch line with
        | some c =>
          { s2 with pgCollegeGpaOrPercentage := c, pgCollegeGpaScale := "cgpa" }
        | none => s2
    match yearSearch line with
    | some y => { s3 with pgGraduationYear := y }
    | none => s3
  else schema

/-- The education-section keyword list of `parse_education`. -/
def eduKeywords : List String := ["education", "academics", "academic details"]

/-- `parse_education(text, schema)` (the in-place dictionary mutation is
modelled by returning the updated record). -/
def parse_education (text : String) (schema : Resume) : Resume :=
  let edu_block := find_section_block text eduKeywords
  if edu_block = "" then schema
  else
    let lines := ((splitlines edu_block).map pyStrip).filter (fun l => l ≠ "")
    lines.foldl processEduLine schema

/-- `grab_score(keyword)` over the lowercased text: digit group of the
first `keyword\s*[:\-]\s*(\d+)` match, else `""`. -/
def grab_score (lower : String) (kw : String) : String :=
  match searchS (scoreRE kw) lower with
  | some h => String.mk (capGet h.caps 1)
  | none => ""

/-- `parse_test_scores(text, schema)`: each score becomes
`grab_score(kw) or old` (the six assignments are independent, so the
sequential dictionary updates of the source are a simultaneous update). -/
def parse_test_scores (text : String) (schema : Resume) : Resume :=
  let lower := pyLower text
  let ts := schema.testScores
  { schema with testScores :=
    { gre := pyOr (grab_score lower "gre") ts.gre
      gmat := pyOr (grab_score lower "gmat") ts.gmat
      sat := pyOr (grab_score lower "sat") ts.sat
      act := pyOr (grab_score lower "act") ts.act
      toefl := pyOr (grab_score lower "toefl") ts.toefl
      ielts := pyOr (grab_score lower "ielts") ts.ielts } }

/-- `build_structured_data(text)`: the main pipeline of `nlp.py`. -/
def build_structured_data (text : String) : Resume :=
  let schema := empty_resume_schema
  let schema := { schema with
    name := extract_name text
    email := extract_email text
    phoneNumber := extract_phone text }
  let exp_block := find_section_block text ["experience", "work experience", "professional experience"]
  let cert_block := find_section_block text ["certifications", "certification"]
  let extra_block := find_section_block text ["extra curricular", "extracurricular", "activities"]
  let ach_block := find_section_block text ["achievements", "accomplishments"]
  let pubs_block := find_section_block text ["publications", "research", "research publications"]
  let schema := { schema with
    workExperience := section_to_list exp_block
    certifications := section_to_list cert_block
    extraCurricularActivities := section_to_list extra_block
    achievements := section_to_list ach_block
    researchPublications := section_to_list pubs_block }
  let schema := { schema with skills := extract_skills text }
  let schema := parse_education text schema
  parse_test_scores text schema

end Nlp

/-! ## `app1.py` (parser core only; Flask routing, file I/O and HTML
rendering are boundary code outside the claims) -/

namespace App1

/-- `split_lines`: stripped non-empty lines. -/
def split_lines (text : String) : List String :=
  ((splitlines text).map pyStrip).filter (fun l => l ≠ "")

/-- `extract_phone` (app1 variant): all `PHONE_REGEX` candidates in
order, each candidate being the concatenation `"".join(match)` of the
two capture groups; the first whose digit-only length is in `[10, 13]`
is returned stripped, else `None`. -/
def extract_phone (text : String) : Option String :=
  (((findallRE APP1_PHONE_RE text).map
      (fun h => String.mk (capGet h.caps 1) ++ String.mk (capGet h.caps 2))).find?
    (fun candidate => 10 ≤ countDigits candidate && countDigits candidate ≤ 13)).map pyStrip

/-- Acceptance test of a line in `guess_name`: word count in `(1, 4]`
and every word contains at least one alphabetic character. -/
def nameLineOk (lineClean : String) : Bool :=
  let words := pySplitWs lineClean
  (decide (1 < words.length) && decide (words.length ≤ 4))
    && words.all (fun w => w.toList.any (·.isAlpha))

/-- Skip test of a line in `guess_name`: the line contains an email, a
URL, or a phone-like match. -/
def lineSkip (lineClean : String) : Bool :=
  searchB EMAIL_RE lineClean || searchB URL_RE lineClean || searchB APP1_PHONE_RE lineClean

/-- Loop of `guess_name` over the (at most 8) candidate lines. -/
def guessNameAux : List String → Option String
  | [] => none
  | line :: rest =>
    let lineClean := pyStrip line
    if lineClean = "" then guessNameAux rest
    else if lineSkip lineClean then guessNameAux rest
    else if nameLineOk lineClean then some lineClean
    else guessNameAux rest

/-- `guess_name(lines)`: scan at most the first 8 lines. -/
def guess_name (lines : List String) : Option String :=
  guessNameAux (lines.take 8)

/-- `SECTION_HEADERS` of `app1.py`, in dictionary insertion order. -/
def SECTION_HEADERS : List (String × List String) :=
  [("summary", ["summary", "about me", "profile"]),
   ("education", ["education", "academic", "qualification", "academics"]),
   ("experience", ["experience", "work experience", "professional experience", "employment"]),
   ("projects", ["project", "projects"]),
   ("skills", ["skills", "technical skills", "skills & tools"])]

/-- The heading category assigned to a raw line by the scanning loop of
`find_sections`: every `(section, keyword)` pair is tested and the
assignment `index_to_section[i] = section` has no `break`, so the last
matching section in table order wins. -/
def lineSection (raw : String) : Option String :=
  let line := pyLower (pyStrip raw)
  SECTION_HEADERS.foldl
    (fun acc sk => if sk.2.any (fun kw => Nlp.headKwMatch line kw) then some sk.1 else acc)
    none

/-- The `sections_text` dictionary of `find_sections` (fixed keys). -/
@[ext]
structure Sections where
  summary : String
  education : String
  experience : String
  projects : String
  skills : String
deriving DecidableEq

/-- All-empty `sections_text` initial value. -/
def emptySections : Sections :=
  { summary := "", education := "", experience := "", projects := "", skills := "" }

/-- Accumulate a heading's body into its category: append with a
newline separator if the category already has content. -/
def addSection (acc : Sections) (name content : String) : Sections :=
  if name == "summary" then
    { acc with summary := if acc.summary ≠ "" then acc.summary ++ "\n" ++ content else content }
  else if name == "education" then
    { acc with education := if acc.education ≠ "" then acc.education ++ "\n" ++ content else content }
  else if name == "experience" then
    { acc with experience := if acc.experience ≠ "" then acc.experience ++ "\n" ++ content else content }
  else if name == "projects" then
    { acc with projects := if acc.projects ≠ "" then acc.projects ++ "\n" ++ content else content }
  else if name == "skills" then
    { acc with skills := if acc.skills ≠ "" then acc.skills ++ "\n" ++ content else content }
  else acc

/-- Slice the bodies between consecutive heading indices (the body of
the last heading runs to the end of the document). -/
def sliceBodies (lines : List String) : List (Nat × String) → Sections → Sections
  | [], acc => acc
  | [(i, sec)], acc =>
    sliceBodies lines [] (addSection acc sec (pyStrip (joinNL (lines.drop (i + 1)))))
  | (i, sec) :: (j, sec2) :: rest, acc =>
    sliceBodies lines ((j, sec2) :: rest)
      (addSection acc sec (pyStrip (joinNL ((lines.drop (i + 1)).take (j - (i + 1))))))

/-- The `index_to_section` mapping of `find_sections`, built by the
scanning loop in increasing line order (so its keys are already the
sorted index list). -/
def scanHeads : Nat → List String → List (Nat × String)
  | _, [] => []
  | i, l :: rest =>
    match lineSection l with
    | some sec => (i, sec) :: scanHeads (i + 1) rest
    | none => scanHeads (i + 1) rest

/-- `find_sections(text)`: map heading lines to categories; with no
heading, the whole text becomes the summary body; otherwise slice
bodies between consecutive headings. -/
def find_sections (text : String) : Sections :=
  let lines := splitlines text
  let idx := scanHeads 0 lines
  match idx with
  | [] => { emptySections with summary := text }
  | _ :: _ => sliceBodies lines idx emptySections

end App1

/-- A schema whose `gre` test score is already populated (used to probe
the overwrite behaviour of `parse_test_scores`). -/
def preFilledGre : Resume :=
  { empty_resume_schema with testScores := { empty_resume_schema.testScores with gre := "999" } }

/-- A schema whose institution-name and degree fields are already
populated (used to probe the first-wins guards of `parse_education`). -/
def preFilledEdu : Resume :=
  { empty_resume_schema with
    highSchoolName := "HS", ugCollegeName := "UG", ugDegree := "D1",
    pgCollegeName := "PG", pgDegree := "D2" }

/-! ## Supporting lemmas -/

theorem pyOr_of_ne {a : String} (b : String) (h : a ≠ "") : pyOr a b = a := by
  simp [pyOr, h]

theorem pyOr_idem (g x : String) : pyOr g (pyOr g x) = pyOr g x := by
  by_cases h : g = "" <;> simp [pyOr, h]

theorem firstIdxWhere_eq_none {p : α → Bool} {l : List α}
    (h : ∀ a ∈ l, p a = false) : firstIdxWhere p l = none := by
  induction l with
  | nil => rfl
  | cons a rest ih =>
    have ha := h a (by simp)
    simp only [firstIdxWhere, ha]
    simp [ih (fun b hb => h b (by simp [hb]))]

theorem firstIdxWhere_some {p : α → Bool} (d : α) {l : List α} {e : Nat}
    (h : firstIdxWhere p l = some e) :
    e < l.length ∧ p (l.getD e d) = true ∧ ∀ j, j < e → p (l.getD j d) = false := by
  induction l generalizing e with
  | nil => simp [firstIdxWhere] at h
  | cons a rest ih =>
    cases hpa : p a with
    | true =>
      have he : e = 0 := by
        simp [firstIdxWhere, hpa] at h
        omega
      subst he
      exact ⟨by simp, by simpa using hpa, fun j hj => by omega⟩
    | false =>
      rw [show firstIdxWhere p (a :: rest) = (firstIdxWhere p rest).map (· + 1) from by
        simp [firstIdxWhere, hpa]] at h
      rw [Option.map_eq_some'] at h
      obtain ⟨e', he', rfl⟩ := h
      obtain ⟨h1, h2, h3⟩ := ih he'
      refine ⟨by simp only [List.length_cons]; omega, by simpa using h2, ?_⟩
      intro j hj
      match j with
      | 0 => simpa using hpa
      | j + 1 => simpa using h3 j (by omega)

theorem scanHeads_nil {lines : List String}
    (h : ∀ l ∈ lines, App1.lineSection l = none) (i : Nat) :
    App1.scanHeads i lines = [] := by
  induction lines generalizing i with
  | nil => rfl
  | cons a rest ih =>
    have ha := h a (by simp)
    simp only [App1.scanHeads, ha]
    exact ih (fun b hb => h b (by simp [hb])) (i + 1)

theorem guessNameAux_eq_find (l : List String) :
    App1.guessNameAux l =
      (l.map pyStrip).find?
        (fun lc => !(lc == "") && !App1.lineSkip lc && App1.nameLineOk lc) := by
  induction l with
  | nil => rfl
  | cons a rest ih =>
    by_cases hempty : pyStrip a = ""
    · simp [App1.guessNameAux, hempty, List.find?_cons, ih]
    · by_cases hskip : App1.lineSkip (pyStrip a) = true
      · simp [App1.guessNameAux, hempty, hskip, List.find?_cons, ih]
      · by_cases hok : App1.nameLineOk (pyStrip a) = true
        · simp [App1.guessNameAux, hempty, hskip, hok, List.find?_cons]
        · simp [App1.guessNameAux, hempty, hskip, hok, List.find?_cons, ih]

/-! ## Claims -/

/-- Claim C1: for every input text, the top-level pipeline
`build_structured_data` terminates (it is a total Lean function) and
returns a record containing every field of the fixed resume schema —
name, email, phoneNumber, the three education tiers, the six list
fields, and the six-key testScores map — with string fields defaulting
to `""` and list fields to `[]` in `empty_resume_schema`. -/
theorem C1_pipeline_returns_full_schema (text : String) :
    (resumePairs (Nlp.build_structured_data text)).map Prod.fst =
      ["name", "email", "phoneNumber",
       "highSchoolName", "highSchoolAddress", "highSchoolGpaOrPercentage",
       "highSchoolGpaScale", "highSchoolBoard", "highSchoolGraduationYear",
       "ugCollegeName", "ugCollegeAddress", "ugCollegeGpaOrPercentage",
       "ugCollegeGpaScale", "ugUniversity", "ugGraduationYear", "ugDegree", "ugMajor",
       "pgCollegeName", "pgCollegeAddress", "pgCollegeGpaOrPercentage",
       "pgCollegeGpaScale", "pgUniversity", "pgGraduationYear", "pgDegree", "pgMajor",
       "certifications", "extraCurricularActivities", "workExperience",
       "researchPublications", "testScores", "achievements", "skills"] ∧
    (tsPairs (Nlp.build_structured_data text).testScores).map Prod.fst =
      ["sat", "act", "gre", "gmat", "toefl", "ielts"] :=
  ⟨rfl, rfl⟩

/-- Claim C3: if no line of the text is recognized as a section heading
(no stripped lowercased line equals a configured synonym with optional
trailing colon), `find_sections` assigns the entire document text
verbatim to the `summary` category and every other category is the
empty string. -/
theorem C3_no_headings_all_text_to_summary (text : String)
    (h : (splitlines text).all (fun l => (App1.lineSection l).isNone) = true) :
    App1.find_sections text =
      { summary := text, education := "", experience := "", projects := "", skills := "" } := by
  have hall : ∀ l ∈ splitlines text, App1.lineSection l = none := by
    intro l hl
    have := (List.all_eq_true.mp h) l hl
    simpa [Option.isNone_iff_eq_none] using this
  simp only [App1.find_sections, scanHeads_nil hall 0]
  rfl

/-- Witness for C3 at a concrete two-line text with no headings. -/
theorem C3_no_headings_all_text_to_summary_witness :
    App1.find_sections "hello\nworld" =
      { summary := "hello\nworld", education := "", experience := "", projects := "",
        skills := "" } :=
  C3_no_headings_all_text_to_summary "hello\nworld" (by decide)

/-- Claim C6: `guess_name` scans at most the first 8 lines, skips any
line containing an email, URL, or phone-like match, and returns the
first remaining (stripped, non-empty) line whose word count is between
2 and 4 inclusive and whose every word contains at least one letter; on
the lines `["John Smith", "john@x.com", "+1 415 555 0000"]` it returns
`"John Smith"`.  (The stricter `nlp.extract_name` variant instead skips
any line containing `"@"` or a digit.) -/
theorem C6_guess_name_first_clean_line (lines : List String) :
    App1.guess_name lines = App1.guess_name (lines.take 8) ∧
    App1.guess_name lines =
      ((lines.take 8).map pyStrip).find?
        (fun lc => !(lc == "") && !App1.lineSkip lc && App1.nameLineOk lc) ∧
    App1.guess_name ["John Smith", "john@x.com", "+1 415 555 0000"] = some "John Smith" := by
  refine ⟨?_, ?_, by decide⟩
  · simp [App1.guess_name, List.take_take]
  · simpa using guessNameAux_eq_find (lines.take 8)

theorem processEduLine_keeps_set_names (s : Resume) (line : String) :
    (s.highSchoolName ≠ "" → (Nlp.processEduLine s line).highSchoolName = s.highSchoolName) ∧
    (s.ugCollegeName ≠ "" → (Nlp.processEduLine s line).ugCollegeName = s.ugCollegeName) ∧
    (s.ugDegree ≠ "" → (Nlp.processEduLine s line).ugDegree = s.ugDegree) ∧
    (s.pgCollegeName ≠ "" → (Nlp.processEduLine s line).pgCollegeName = s.pgCollegeName) ∧
    (s.pgDegree ≠ "" → (Nlp.processEduLine s line).pgDegree = s.pgDegree) := by
  simp only [Nlp.processEduLine]
  repeat' split
  all_goals
    refine ⟨fun h => ?_, fun h => ?_, fun h => ?_, fun h => ?_, fun h => ?_⟩ <;>
      simp [pyOr_of_ne _ h]

theorem foldl_processEduLine_keeps_set_names (lines : List String) (s : Resume) :
    (s.highSchoolName ≠ "" →
      (lines.foldl Nlp.processEduLine s).highSchoolName = s.highSchoolName) ∧
    (s.ugCollegeName ≠ "" →
      (lines.foldl Nlp.processEduLine s).ugCollegeName = s.ugCollegeName) ∧
    (s.ugDegree ≠ "" → (lines.foldl Nlp.processEduLine s).ugDegree = s.ugDegree) ∧
    (s.pgCollegeName ≠ "" →
      (lines.foldl Nlp.processEduLine s).pgCollegeName = s.pgCollegeName) ∧
    (s.pgDegree ≠ "" → (lines.foldl Nlp.processEduLine s).pgDegree = s.pgDegree) := by
  induction lines generalizing s with
  | nil => exact ⟨fun _ => rfl, fun _ => rfl, fun _ => rfl, fun _ => rfl, fun _ => rfl⟩
  | cons line rest ih =>
    obtain ⟨k1, k2, k3, k4, k5⟩ := processEduLine_keeps_set_names s line
    obtain ⟨i1, i2, i3, i4, i5⟩ := ih (Nlp.processEduLine s line)
    refine ⟨fun h => ?_, fun h => ?_, fun h => ?_, fun h => ?_, fun h => ?_⟩ <;>
      simp only [List.foldl_cons]
    · rw [i1 (by rw [k1 h]; exact h), k1 h]
    · rw [i2 (by rw [k2 h]; exact h), k2 h]
    · rw [i3 (by rw [k3 h]; exact h), k3 h]
    · rw [i4 (by rw [k4 h]; exact h), k4 h]
    · rw [i5 (by rw [k5 h]; exact h), k5 h]

theorem processEduLine_frame (s : Resume) (line : String) :
    (Nlp.processEduLine s line).name = s.name ∧
    (Nlp.processEduLine s line).email = s.email ∧
    (Nlp.processEduLine s line).phoneNumber = s.phoneNumber ∧
    (Nlp.processEduLine s line).certifications = s.certifications ∧
    (Nlp.processEduLine s line).extraCurricularActivities = s.extraCurricularActivities ∧
    (Nlp.processEduLine s line).workExperience = s.workExperience ∧
    (Nlp.processEduLine s line).researchPublications = s.researchPublications ∧
    (Nlp.processEduLine s line).testScores = s.testScores ∧
    (Nlp.processEduLine s line).achievements = s.achievements ∧
    (Nlp.processEduLine s line).skills = s.skills := by
  simp only [Nlp.processEduLine]
  repeat' split
  all_goals exact ⟨rfl, rfl, rfl, rfl, rfl, rfl, rfl, rfl, rfl, rfl⟩

theorem foldl_processEduLine_frame (lines : List String) (s : Resume) :
    (lines.foldl Nlp.processEduLine s).name = s.name ∧
    (lines.foldl Nlp.processEduLine s).email = s.email ∧
    (lines.foldl Nlp.processEduLine s).phoneNumber = s.phoneNumber ∧
    (lines.foldl Nlp.processEduLine s).certifications = s.certifications ∧
    (lines.foldl Nlp.processEduLine s).extraCurricularActivities = s.extraCurricularActivities ∧
    (lines.foldl Nlp.processEduLine s).workExperience = s.workExperience ∧
    (lines.foldl Nlp.processEduLine s).researchPublications = s.researchPublications ∧
    (lines.foldl Nlp.processEduLine s).testScores = s.testScores ∧
    (lines.foldl Nlp.processEduLine s).achievements = s.achievements ∧
    (lines.foldl Nlp.processEduLine s).skills = s.skills := by
  induction lines generalizing s with
  | nil => exact ⟨rfl, rfl, rfl, rfl, rfl, rfl, rfl, rfl, rfl, rfl⟩
  | cons line rest ih =>
    obtain ⟨k1, k2, k3, k4, k5, k6, k7, k8, k9, k10⟩ := processEduLine_frame s line
    obtain ⟨i1, i2, i3, i4, i5, i6, i7, i8, i9, i10⟩ := ih (Nlp.processEduLine s line)
    simp only [List.foldl_cons]
    exact ⟨i1.trans k1, i2.trans k2, i3.trans k3, i4.trans k4, i5.trans k5,
           i6.trans k6, i7.trans k7, i8.trans k8, i9.trans k9, i10.trans k10⟩

/-- Counterexample to claim C2: inside the education section, the line
`"B.Tech (CS)"` sets `ugMajor := "CS"`, but a later undergraduate line
`"Bachelor of Science (Math)"` overwrites it with `"Math"` — the major
assignment in `parse_education` has no "if not already set" guard, so
first-qualifying-line-wins does not hold field-by-field. -/
theorem C2_cex_later_ug_line_overwrites_major :
    (Nlp.parse_education "education\nB.Tech (CS)" empty_resume_schema).ugMajor = "CS" ∧
    (Nlp.parse_education "education\nB.Tech (CS)\nBachelor of Science (Math)"
        empty_resume_schema).ugMajor = "Math" :=
  ⟨by decide, by decide⟩

/-- Claim C2 (amended): in `parse_education`, only the institution-name
and degree fields (`highSchoolName`, `ugCollegeName`, `ugDegree`,
`pgCollegeName`, `pgDegree`) are guarded first-qualifying-line-wins:
once non-empty they are never changed by later lines.  The major,
grade, grade-scale and graduation-year fields are assigned
unconditionally, so each later qualifying line that matches them
overwrites the previous value (e.g. any undergraduate-classified line
with a parenthesized group sets `ugMajor` to it, set or not). -/
theorem C2_first_wins_only_for_names_and_degrees (text : String) (s : Resume) :
    ((s.highSchoolName ≠ "" →
        (Nlp.parse_education text s).highSchoolName = s.highSchoolName) ∧
     (s.ugCollegeName ≠ "" →
        (Nlp.parse_education text s).ugCollegeName = s.ugCollegeName) ∧
     (s.ugDegree ≠ "" → (Nlp.parse_education text s).ugDegree = s.ugDegree) ∧
     (s.pgCollegeName ≠ "" →
        (Nlp.parse_education text s).pgCollegeName = s.pgCollegeName) ∧
     (s.pgDegree ≠ "" → (Nlp.parse_education text s).pgDegree = s.pgDegree)) ∧
    (∀ (s' : Resume) (line m : String),
       Nlp.hsHit (pyLower line) = false → Nlp.ugHit (pyLower line) = true →
       Nlp.majorSearch line = some m → (Nlp.processEduLine s' line).ugMajor = m) := by
  constructor
  · by_cases hb : Nlp.find_section_block text Nlp.eduKeywords = ""
    · simp [Nlp.parse_education, hb]
    · simp only [Nlp.parse_education, hb, if_neg, if_false]
      exact foldl_processEduLine_keeps_set_names _ s
  · intro s' line m hhs hug hm
    simp only [Nlp.processEduLine, hhs, hug, hm]
    simp only [Bool.false_eq_true, if_false, if_true]
    repeat' split
    all_goals rfl

/-- Witness for C2 (amended): a pre-populated `ugCollegeName` survives
an education section containing another undergraduate line, and an
undergraduate line with a parenthesized group writes `ugMajor`. -/
theorem C2_first_wins_only_for_names_and_degrees_witness :
    (Nlp.parse_education "education\nBachelor of Science (Math)" preFilledEdu).ugCollegeName =
      preFilledEdu.ugCollegeName ∧
    (Nlp.processEduLine empty_resume_schema "B.Tech (CS)").ugMajor = "CS" :=
  ⟨(C2_first_wins_only_for_names_and_degrees "education\nBachelor of Science (Math)"
      preFilledEdu).1.2.1 (by decide),
   (C2_first_wins_only_for_names_and_degrees "" empty_resume_schema).2
      empty_resume_schema "B.Tech (CS)" "CS" (by decide) (by decide) (by decide)⟩

/-- Claim C9: `parse_education` modifies only the education-tier fields
(`highSchool*`, `ug*`, `pg*`); every other field of the record — name,
email, phoneNumber, the six list fields and the testScores map — is
unchanged, and if no education heading line is found in the text the
entire record is unchanged. -/
theorem C9_parse_education_frame (text : String) (s : Resume) :
    ((Nlp.parse_education text s).name = s.name ∧
     (Nlp.parse_education text s).email = s.email ∧
     (Nlp.parse_education text s).phoneNumber = s.phoneNumber ∧
     (Nlp.parse_education text s).certifications = s.certifications ∧
     (Nlp.parse_education text s).extraCurricularActivities = s.extraCurricularActivities ∧
     (Nlp.parse_education text s).workExperience = s.workExperience ∧
     (Nlp.parse_education text s).researchPublications = s.researchPublications ∧
     (Nlp.parse_education text s).testScores = s.testScores ∧
     (Nlp.parse_education text s).achievements = s.achievements ∧
     (Nlp.parse_education text s).skills = s.skills) ∧
    (((splitlines text).map pyLower).all
        (fun line => !(Nlp.eduKeywords.any (fun kw => Nlp.headKwMatch (pyStrip line) kw))) =
        true →
      Nlp.parse_education text s = s) := by
  constructor
  · by_cases hb : Nlp.find_section_block text Nlp.eduKeywords = ""
    · simp [Nlp.parse_education, hb]
    · simp only [Nlp.parse_education, hb, if_neg, if_false]
      exact foldl_processEduLine_frame _ s
  · intro h
    have hnone :
        firstIdxWhere
          (fun line => Nlp.eduKeywords.any (fun kw => Nlp.headKwMatch (pyStrip line) kw))
          ((splitlines text).map pyLower) = none := by
      apply firstIdxWhere_eq_none
      intro a ha
      simpa using List.all_eq_true.mp h a ha
    have hb : Nlp.find_section_block text Nlp.eduKeywords = "" := by
      simp only [Nlp.find_section_block, hnone]
    simp [Nlp.parse_education, hb]

/-- Witness for C9 at a concrete heading-free text. -/
theorem C9_parse_education_frame_witness :
    Nlp.parse_education "hello world" empty_resume_schema = empty_resume_schema :=
  (C9_parse_education_frame "hello world" empty_resume_schema).2 (by decide)

/-- Counterexample to claim C8: the update
`schema["testScores"]["gre"] = grab_score("gre") or schema["testScores"]["gre"]`
prefers the freshly grabbed score, so a pre-populated `gre = "999"` is
overwritten by the text `"gre: 320"` instead of being kept. -/
theorem C8_cex_nonempty_score_overwritten :
    preFilledGre.testScores.gre = "999" ∧
    (Nlp.parse_test_scores "gre: 320" preFilledGre).testScores.gre = "320" :=
  ⟨rfl, by decide⟩

/-- Claim C8 (amended): `parse_test_scores` sets each score field to the
text-derived value whenever `grab_score` finds one — overwriting any
pre-call value, empty or not — and keeps the pre-call value only when
the text yields nothing for that key; calling it a second time on the
same text leaves the record unchanged (idempotence). -/
theorem C8_scores_overwrite_but_idempotent (text : String) (s : Resume) :
    Nlp.parse_test_scores text (Nlp.parse_test_scores text s) =
      Nlp.parse_test_scores text s ∧
    ((Nlp.grab_score (pyLower text) "gre" = "" →
        (Nlp.parse_test_scores text s).testScores.gre = s.testScores.gre) ∧
     (Nlp.grab_score (pyLower text) "gre" ≠ "" →
        (Nlp.parse_test_scores text s).testScores.gre =
          Nlp.grab_score (pyLower text) "gre")) ∧
    ((Nlp.grab_score (pyLower text) "gmat" = "" →
        (Nlp.parse_test_scores text s).testScores.gmat = s.testScores.gmat) ∧
     (Nlp.grab_score (pyLower text) "gmat" ≠ "" →
        (Nlp.parse_test_scores text s).testScores.gmat =
          Nlp.grab_score (pyLower text) "gmat")) ∧
    ((Nlp.grab_score (pyLower text) "sat" = "" →
        (Nlp.parse_test_scores text s).testScores.sat = s.testScores.sat) ∧
     (Nlp.grab_score (pyLower text) "sat" ≠ "" →
        (Nlp.parse_test_scores text s).testScores.sat =
          Nlp.grab_score (pyLower text) "sat")) ∧
    ((Nlp.grab_score (pyLower text) "act" = "" →
        (Nlp.parse_test_scores text s).testScores.act = s.testScores.act) ∧
     (Nlp.grab_score (pyLower text) "act" ≠ "" →
        (Nlp.parse_test_scores text s).testScores.act =
          Nlp.grab_score (pyLower text) "act")) ∧
    ((Nlp.grab_score (pyLower text) "toefl" = "" →
        (Nlp.parse_test_scores text s).testScores.toefl = s.testScores.toefl) ∧
     (Nlp.grab_score (pyLower text) "toefl" ≠ "" →
        (Nlp.parse_test_scores text s).testScores.toefl =
          Nlp.grab_score (pyLower text) "toefl")) ∧
    ((Nlp.grab_score (pyLower text) "ielts" = "" →
        (Nlp.parse_test_scores text s).testScores.ielts = s.testScores.ielts) ∧
     (Nlp.grab_score (pyLower text) "ielts" ≠ "" →
        (Nlp.parse_test_scores text s).testScores.ielts =
          Nlp.grab_score (pyLower text) "ielts")) := by
  refine ⟨?_, ?_, ?_, ?_, ?_, ?_, ?_⟩
  · have hts :
        (Nlp.parse_test_scores text (Nlp.parse_test_scores text s)).testScores =
          (Nlp.parse_test_scores text s).testScores := by
      apply TestScores.ext <;> exact pyOr_idem _ _
    apply Resume.ext <;> first | exact hts | rfl
  all_goals
    exact ⟨fun h => by simp [Nlp.parse_test_scores, pyOr, h],
           fun h => by simp [Nlp.parse_test_scores, pyOr, h]⟩

/-- Witness for C8 (amended): on `"gre: 320"` the grabbed `gre` value is
written and the unmatched `sat` keeps its (empty) pre-call value. -/
theorem C8_scores_overwrite_but_idempotent_witness :
    (Nlp.parse_test_scores "gre: 320" empty_resume_schema).testScores.gre =
      Nlp.grab_score (pyLower "gre: 320") "gre" ∧
    (Nlp.parse_test_scores "gre: 320" empty_resume_schema).testScores.sat =
      empty_resume_schema.testScores.sat :=
  ⟨(C8_scores_overwrite_but_idempotent "gre: 320" empty_resume_schema).2.1.2 (by decide),
   (C8_scores_overwrite_but_idempotent "gre: 320" empty_resume_schema).2.2.2.1.1 (by decide)⟩

/-- Claim C5: for every education-section line, the grade is the first
percentage-pattern match with scale `"percentage"`; only if no
percentage matches is the GPA pattern used with scale `"cgpa"` (a line
containing both is recorded as percentage, since `if perc ... elif
cgpa` checks percentage first); and the line
`"B.Tech Computer Science (AI) 2021 8.5"` inside the education section
yields `ugDegree="Bachelor"`, `ugMajor="AI"`, `ugGraduationYear="2021"`,
`ugCollegeGpaOrPercentage="8.5"`, `ugCollegeGpaScale="cgpa"`. -/
theorem C5_percentage_before_gpa :
    (∀ (s : Resume) (line p : String),
       Nlp.percSearch line = some p →
       (Nlp.hsHit (pyLower line) = true →
          (Nlp.processEduLine s line).highSchoolGpaOrPercentage = p ∧
          (Nlp.processEduLine s line).highSchoolGpaScale = "percentage") ∧
       (Nlp.hsHit (pyLower line) = false → Nlp.ugHit (pyLower line) = true →
          (Nlp.processEduLine s line).ugCollegeGpaOrPercentage = p ∧
          (Nlp.processEduLine s line).ugCollegeGpaScale = "percentage") ∧
       (Nlp.hsHit (pyLower line) = false → Nlp.ugHit (pyLower line) = false →
        Nlp.pgHit (pyLower line) = true →
          (Nlp.processEduLine s line).pgCollegeGpaOrPercentage = p ∧
          (Nlp.processEduLine s line).pgCollegeGpaScale = "percentage")) ∧
    (∀ (s : Resume) (line c : String),
       Nlp.percSearch line = none → Nlp.cgpaSearch line = some c →
       (Nlp.hsHit (pyLower line) = true →
          (Nlp.processEduLine s line).highSchoolGpaOrPercentage = c ∧
          (Nlp.processEduLine s line).highSchoolGpaScale = "cgpa") ∧
       (Nlp.hsHit (pyLower line) = false → Nlp.ugHit (pyLower line) = true →
          (Nlp.processEduLine s line).ugCollegeGpaOrPercentage = c ∧
          (Nlp.processEduLine s line).ugCollegeGpaScale = "cgpa") ∧
       (Nlp.hsHit (pyLower line) = false → Nlp.ugHit (pyLower line) = false →
        Nlp.pgHit (pyLower line) = true →
          (Nlp.processEduLine s line).pgCollegeGpaOrPercentage = c ∧
          (Nlp.processEduLine s line).pgCollegeGpaScale = "cgpa")) ∧
    ((Nlp.parse_education "education\nB.Tech Computer Science (AI) 2021 8.5"
        empty_resume_schema).ugDegree = "Bachelor" ∧
     (Nlp.parse_education "education\nB.Tech Computer Science (AI) 2021 8.5"
        empty_resume_schema).ugMajor = "AI" ∧
     (Nlp.parse_education "education\nB.Tech Computer Science (AI) 2021 8.5"
        empty_resume_schema).ugGraduationYear = "2021" ∧
     (Nlp.parse_education "education\nB.Tech Computer Science (AI) 2021 8.5"
        empty_resume_schema).ugCollegeGpaOrPercentage = "8.5" ∧
     (Nlp.parse_education "education\nB.Tech Computer Science (AI) 2021 8.5"
        empty_resume_schema).ugCollegeGpaScale = "cgpa") := by
  refine ⟨?_, ?_, by decide, by decide, by decide, by decide, by decide⟩
  · intro s line p hp
    refine ⟨fun hhs => ?_, fun hhs hug => ?_, fun hhs hug hpg => ?_⟩ <;>
      simp only [Nlp.processEduLine, hp, hhs] <;>
      try simp only [hug] <;>
      try simp only [hpg]
    all_goals
      simp only [Bool.false_eq_true, if_false, if_true]
      repeat' split
      all_goals exact ⟨rfl, rfl⟩
  · intro s line c hp hc
    refine ⟨fun hhs => ?_, fun hhs hug => ?_, fun hhs hug hpg => ?_⟩ <;>
      simp only [Nlp.processEduLine, hp, hc, hhs] <;>
      try simp only [hug] <;>
      try simp only [hpg]
    all_goals
      simp only [Bool.false_eq_true, if_false, if_true]
      repeat' split
      all_goals exact ⟨rfl, rfl⟩

/-- Witness for C5: a percentage undergraduate line and the claim's own
GPA undergraduate line. -/
theorem C5_percentage_before_gpa_witness :
    ((Nlp.processEduLine empty_resume_schema "B.Tech (CS) 85%").ugCollegeGpaOrPercentage =
        "85%" ∧
     (Nlp.processEduLine empty_resume_schema "B.Tech (CS) 85%").ugCollegeGpaScale =
        "percentage") ∧
    ((Nlp.processEduLine empty_resume_schema
        "B.Tech Computer Science (AI) 2021 8.5").ugCollegeGpaOrPercentage = "8.5" ∧
     (Nlp.processEduLine empty_resume_schema
        "B.Tech Computer Science (AI) 2021 8.5").ugCollegeGpaScale = "cgpa") :=
  ⟨(C5_percentage_before_gpa.1 empty_resume_schema "B.Tech (CS) 85%" "85%"
      (by decide)).2.1 (by decide) (by decide),
   (C5_percentage_before_gpa.2.1 empty_resume_schema
      "B.Tech Computer Science (AI) 2021 8.5" "8.5" (by decide) (by decide)).2.1
      (by decide) (by decide)⟩

theorem firstIdxWhere_none_imp {p : α → Bool} {l : List α}
    (h : firstIdxWhere p l = none) : ∀ a ∈ l, p a = false := by
  induction l with
  | nil => simp
  | cons a rest ih =>
    cases hpa : p a with
    | true => simp [firstIdxWhere, hpa] at h
    | false =>
      have hrest : firstIdxWhere p rest = none := by
        rw [show firstIdxWhere p (a :: rest) = (firstIdxWhere p rest).map (· + 1) from by
          simp [firstIdxWhere, hpa]] at h
        exact Option.map_eq_none'.mp h
      intro b hb
      rcases List.mem_cons.mp hb with rfl | hb
      · exact hpa
      · exact ih hrest b hb

theorem getD_mem_of_lt {l : List α} {j : Nat} (d : α) (h : j < l.length) :
    l.getD j d ∈ l := by
  induction l generalizing j with
  | nil => simp at h
  | cons a rest ih =>
    match j with
    | 0 => simp
    | j + 1 =>
      simp only [List.getD_cons_succ]
      exact List.mem_cons_of_mem _ (ih (by simpa using h))

/-- Counterexample to claim C7: in `find_section_block` the body of the
`"education"` heading does NOT end at the next known-keyword heading —
a second lowercase `"education"` line is neither all-uppercase nor a
word-colon line, so the block runs straight through it. -/
theorem C7_cex_keyword_heading_does_not_terminate :
    Nlp.find_section_block "education\nalpha\neducation\nbeta" ["education"] =
      "alpha\neducation\nbeta" ∧
    ("alpha\neducation\nbeta" : String) ≠ "alpha" :=
  ⟨by decide, by decide⟩

/-- Claim C7 (amended): the single-section segmenter
`find_section_block` ends the body of a found heading at the first
later line that looks like a generic heading — an all-uppercase line of
at most 5 words, or a line of words followed by a colon with nothing
after it — whichever comes first, and otherwise runs to the end of the
document.  A later occurrence of a known keyword terminates the body
only when it has one of those two shapes. -/
theorem C7_body_ends_at_first_generic_heading (text : String) (keywords : List String)
    (i : Nat)
    (h : firstIdxWhere
        (fun line => keywords.any (fun kw => Nlp.headKwMatch (pyStrip line) kw))
        ((splitlines text).map pyLower) = some i) :
    ∃ e, e ≤ ((splitlines text).drop (i + 1)).length ∧
      (∀ j, j < e →
        Nlp.isHeadingLike (pyStrip (((splitlines text).drop (i + 1)).getD j "")) = false) ∧
      (e < ((splitlines text).drop (i + 1)).length →
        Nlp.isHeadingLike (pyStrip (((splitlines text).drop (i + 1)).getD e "")) = true) ∧
      Nlp.find_section_block text keywords =
        pyStrip (joinNL (((splitlines text).drop (i + 1)).take e)) := by
  have hdef : Nlp.find_section_block text keywords =
      pyStrip (joinNL (((splitlines text).drop (i + 1)).take
        ((firstIdxWhere (fun l => Nlp.isHeadingLike (pyStrip l))
            ((splitlines text).drop (i + 1))).getD
          ((splitlines text).drop (i + 1)).length))) := by
    simp only [Nlp.find_section_block, h]
  cases he : firstIdxWhere (fun l => Nlp.isHeadingLike (pyStrip l))
      ((splitlines text).drop (i + 1)) with
  | none =>
    rw [he] at hdef
    refine ⟨((splitlines text).drop (i + 1)).length, le_refl _, ?_, ?_, by simpa using hdef⟩
    · intro j hj
      exact firstIdxWhere_none_imp he _ (getD_mem_of_lt "" hj)
    · intro hlt
      omega
  | some e =>
    rw [he] at hdef
    obtain ⟨h1, h2, h3⟩ := firstIdxWhere_some "" he
    exact ⟨e, Nat.le_of_lt h1, h3, fun _ => h2, by simpa using hdef⟩

/-- Witness for C7 (amended) at a document whose education body is
closed by the all-uppercase line `"SKILLS"`. -/
theorem C7_body_ends_at_first_generic_heading_witness :
    ∃ e, e ≤ ((splitlines "education\nalpha\nSKILLS\nbeta").drop 1).length ∧
      (∀ j, j < e →
        Nlp.isHeadingLike
          (pyStrip (((splitlines "education\nalpha\nSKILLS\nbeta").drop 1).getD j "")) =
          false) ∧
      (e < ((splitlines "education\nalpha\nSKILLS\nbeta").drop 1).length →
        Nlp.isHeadingLike
          (pyStrip (((splitlines "education\nalpha\nSKILLS\nbeta").drop 1).getD e "")) =
          true) ∧
      Nlp.find_section_block "education\nalpha\nSKILLS\nbeta" ["education"] =
        pyStrip (joinNL (((splitlines "education\nalpha\nSKILLS\nbeta").drop 1).take e)) :=
  C7_body_ends_at_first_generic_heading "education\nalpha\nSKILLS\nbeta" ["education"] 0
    (by decide)

theorem filter_dropWhile_eq {p q : Char → Bool} (hpq : ∀ c, p c = true → q c = false)
    (l : List Char) : (l.dropWhile p).filter q = l.filter q := by
  induction l with
  | nil => rfl
  | cons a rest ih =>
    cases hpa : p a with
    | false => simp [List.dropWhile_cons, hpa]
    | true => simp [List.dropWhile_cons, hpa, List.filter_cons, hpq a hpa, ih]

theorem filter_stripChars {p q : Char → Bool} (hpq : ∀ c, p c = true → q c = false)
    (l : List Char) : (stripChars p l).filter q = l.filter q := by
  unfold stripChars dropTrail
  rw [List.filter_reverse, filter_dropWhile_eq hpq, List.filter_reverse,
    List.reverse_reverse, filter_dropWhile_eq hpq]

theorem space_not_digit : ∀ c, isSpaceChar c = true → c.isDigit = false := by
  intro c hc
  simp only [isSpaceChar, Bool.or_eq_true, beq_iff_eq] at hc
  rcases hc with ((((h | h) | h) | h) | h) | h <;> subst h <;> decide

theorem countDigits_pyStrip (s : String) : countDigits (pyStrip s) = countDigits s := by
  simp only [countDigits, pyStrip]
  rw [show (String.mk (stripChars isSpaceChar s.toList)).toList =
        stripChars isSpaceChar s.toList from rfl,
    filter_stripChars space_not_digit]

/-- Claim C4: phone extraction accepts a candidate (a digit run
optionally grouped with `[-.\s]` separators and an optional leading
country code) only if its digit-only length is in `[10, 13]`, and
returns the first accepted candidate in its original
separator-preserved form, trimmed; `"Phone: +1 415-555-2671"` yields
the 11-digit phone `"+1 415-555-2671"` and `"Room 12-34"` yields
nothing. -/
theorem C4_phone_digit_count_bounds :
    (∀ (text c : String), App1.extract_phone text = some c →
       10 ≤ countDigits c ∧ countDigits c ≤ 13) ∧
    (App1.extract_phone "Phone: +1 415-555-2671" = some "+1 415-555-2671" ∧
     countDigits "+1 415-555-2671" = 11) ∧
    App1.extract_phone "Room 12-34" = none := by
  refine ⟨?_, ⟨by decide, by decide⟩, by decide⟩
  intro text c h
  simp only [App1.extract_phone] at h
  rw [Option.map_eq_some'] at h
  obtain ⟨c0, hf, rfl⟩ := h
  have hp := List.find?_some hf
  simp only [Bool.and_eq_true, decide_eq_true_eq] at hp
  rw [countDigits_pyStrip]
  exact hp

/-- Witness for C4 instantiating the digit-count bound at the accepted
candidate of `"Phone: +1 415-555-2671"`. -/
theorem C4_phone_digit_count_bounds_witness :
    10 ≤ countDigits "+1 415-555-2671" ∧ countDigits "+1 415-555-2671" ≤ 13 :=
  C4_phone_digit_count_bounds.1 "Phone: +1 415-555-2671" "+1 415-555-2671" (by decide)

theorem mem_of_headq_eq_some {l : List α} {x : α} (h : l.head? = some x) : x ∈ l := by
  cases l with
  | nil => simp at h
  | cons a t =>
    have : a = x := by simpa using h
    subst this
    exact List.mem_cons_self a t

theorem mem_reMatches_lit {cs s : List Char} {prev : Option Char} {h : MRes}
    (hm : h ∈ reMatches (.lit cs) s prev) : h.caps = [] := by
  simp only [reMatches] at hm
  split at hm
  · rw [List.mem_singleton] at hm
    subst hm
    rfl
  · simp at hm

theorem mem_reMatches_cls {p : Char → Bool} {s : List Char} {prev : Option Char} {h : MRes}
    (hm : h ∈ reMatches (.cls p) s prev) : h.caps = [] := by
  cases s with
  | nil => simp [reMatches] at hm
  | cons c rest =>
    have hm' : h ∈ (if p c then [(⟨[c], [], rest⟩ : MRes)] else []) := hm
    by_cases hp : p c
    · rw [if_pos hp, List.mem_singleton] at hm'
      subst hm'
      rfl
    · simp [hp] at hm'

theorem take_all_of_le_takeWhile {p : Char → Bool} {s : List Char} {k : Nat}
    (hk : k ≤ (s.takeWhile p).length) : (s.take k).all p = true := by
  obtain ⟨t, ht⟩ := List.takeWhile_prefix (p := p) (l := s)
  rw [← ht, List.take_append_of_le_length hk, List.all_eq_true]
  intro x hx
  exact List.mem_takeWhile_imp (List.take_subset _ _ hx)

theorem length_takeWhile_le' (p : Char → Bool) (s : List Char) :
    (s.takeWhile p).length ≤ s.length := by
  induction s with
  | nil => simp
  | cons a t ih =>
    by_cases hp : p a
    · rw [List.takeWhile_cons_of_pos hp]
      simpa using Nat.succ_le_succ ih
    · rw [List.takeWhile_cons_of_neg hp]
      simp

theorem mem_reMatches_repCls {p : Char → Bool} {lo : Nat} {hi : Option Nat}
    {s : List Char} {prev : Option Char} {h : MRes}
    (hm : h ∈ reMatches (.repCls p lo hi) s prev) :
    h.caps = [] ∧ lo ≤ h.consumed.length ∧ h.consumed.all p = true := by
  have hm' : h ∈ repAlts p lo hi s := hm
  simp only [repAlts] at hm'
  split at hm'
  case isTrue hle =>
    rw [List.mem_map] at hm'
    obtain ⟨i, hi_mem, heq⟩ := hm'
    rw [List.mem_range] at hi_mem
    subst heq
    set m := (s.takeWhile p).length with hmdef
    set mh := (match hi with | none => m | some hb => min m hb) with hmh
    have hmh_le : mh ≤ m := by
      rw [hmh]
      cases hi with
      | none => exact le_refl _
      | some hb => exact Nat.min_le_left _ _
    refine ⟨rfl, ?_, take_all_of_le_takeWhile (by omega)⟩
    simp only [List.length_take]
    have hm_le : m ≤ s.length := by
      rw [hmdef]
      exact length_takeWhile_le' p s
    omega
  case isFalse => simp at hm'

theorem mem_reMatches_seq {a b : RE} {s : List Char} {prev : Option Char} {h : MRes}
    (hm : h ∈ reMatches (.seq a b) s prev) :
    ∃ h1 h2, h1 ∈ reMatches a s prev ∧
      h2 ∈ reMatches b h1.rest (nextPrev h1.consumed prev) ∧
      h.consumed = h1.consumed ++ h2.consumed ∧
      h.caps = h1.caps ++ h2.caps ∧ h.rest = h2.rest := by
  simp only [reMatches, List.mem_flatMap, List.mem_map] at hm
  obtain ⟨h1, hh1, h2, hh2, heq⟩ := hm
  exact ⟨h1, h2, hh1, hh2, by rw [← heq], by rw [← heq], by rw [← heq]⟩

theorem mem_reMatches_group {n : Nat} {a : RE} {s : List Char} {prev : Option Char}
    {h : MRes} (hm : h ∈ reMatches (.group n a) s prev) :
    ∃ h1, h1 ∈ reMatches a s prev ∧ h.consumed = h1.consumed ∧
      h.caps = (n, h1.consumed) :: h1.caps ∧ h.rest = h1.rest := by
  simp only [reMatches, List.mem_map] at hm
  obtain ⟨h1, hh1, heq⟩ := hm
  exact ⟨h1, hh1, by rw [← heq], by rw [← heq], by rw [← heq]⟩

theorem mem_reMatches_seq_intro {a b : RE} {s : List Char} {prev : Option Char}
    {h1 h2 : MRes} (hm1 : h1 ∈ reMatches a s prev)
    (hm2 : h2 ∈ reMatches b h1.rest (nextPrev h1.consumed prev)) :
    (⟨h1.consumed ++ h2.consumed, h1.caps ++ h2.caps, h2.rest⟩ : MRes) ∈
      reMatches (.seq a b) s prev := by
  simp only [reMatches, List.mem_flatMap, List.mem_map]
  exact ⟨h1, hm1, h2, hm2, rfl⟩

theorem mem_reMatches_lit_intro (cs s : List Char) (prev : Option Char)
    (hp : cs.isPrefixOf s = true) :
    (⟨cs, [], s.drop cs.length⟩ : MRes) ∈ reMatches (.lit cs) s prev := by
  simp [reMatches, hp]

theorem mem_reMatches_cls_intro (p : Char → Bool) (c : Char) (rest : List Char)
    (prev : Option Char) (hp : p c = true) :
    (⟨[c], [], rest⟩ : MRes) ∈ reMatches (.cls p) (c :: rest) prev := by
  simp [reMatches, hp]

theorem mem_reMatches_repCls_intro (p : Char → Bool) (lo k : Nat) (s : List Char)
    (prev : Option Char) (hlo : lo ≤ k) (hk : k ≤ (s.takeWhile p).length) :
    (⟨s.take k, [], s.drop k⟩ : MRes) ∈ reMatches (.repCls p lo none) s prev := by
  show _ ∈ repAlts p lo none s
  simp only [repAlts]
  rw [if_pos (le_trans hlo hk)]
  rw [List.mem_map]
  refine ⟨(s.takeWhile p).length - k, ?_, ?_⟩
  · rw [List.mem_range]
    omega
  · have hkk : (s.takeWhile p).length - ((s.takeWhile p).length - k) = k := by omega
    rw [hkk]

theorem mem_reMatches_group_intro (n : Nat) {a : RE} {s : List Char} {prev : Option Char}
    {h : MRes} (hm : h ∈ reMatches a s prev) :
    (⟨h.consumed, (n, h.consumed) :: h.caps, h.rest⟩ : MRes) ∈
      reMatches (.group n a) s prev := by
  simp only [reMatches, List.mem_map]
  exact ⟨h, hm, rfl⟩

/-- Every match of `scoreRE kw` captures, as group 1, a non-empty run of
digits (the `(\d+)` group), and captures nothing else. -/
theorem scoreRE_hit_caps {kw : String} {s : List Char} {prev : Option Char} {h : MRes}
    (hm : h ∈ reMatches (scoreRE kw) s prev) :
    ∃ d, h.caps = [(1, d)] ∧ 1 ≤ d.length ∧ d.all isDigitC = true := by
  simp only [scoreRE] at hm
  obtain ⟨h1, h2, hm1, hm2, _, hcap, _⟩ := mem_reMatches_seq hm
  obtain ⟨h3, h4, hm3, hm4, _, hcap2, _⟩ := mem_reMatches_seq hm2
  obtain ⟨h5, h6, hm5, hm6, _, hcap3, _⟩ := mem_reMatches_seq hm4
  obtain ⟨h7, h8, hm7, hm8, _, hcap4, _⟩ := mem_reMatches_seq hm6
  obtain ⟨h9, hm9, _, hcap5, _⟩ := mem_reMatches_group hm8
  obtain ⟨hc9, hlen, hall⟩ := mem_reMatches_repCls hm9
  refine ⟨h9.consumed, ?_, hlen, hall⟩
  rw [hcap, hcap2, hcap3, hcap4, hcap5, hc9, mem_reMatches_lit hm1,
    (mem_reMatches_repCls hm3).1, mem_reMatches_cls hm5, (mem_reMatches_repCls hm7).1]
  rfl

/-- The captures of a successful search hit come from a genuine match of
the pattern (at the position the scan stopped at). -/
theorem searchFrom_caps {re : RE} : ∀ {s : List Char} {prev : Option Char} {hit : SHit},
    searchFrom re s prev = some hit →
    ∃ t pr m, m ∈ reMatches re t pr ∧ hit.caps = m.caps := by
  intro s
  induction s with
  | nil =>
    intro prev hit h
    simp only [searchFrom] at h
    rw [Option.map_eq_some'] at h
    obtain ⟨m, hm, heq⟩ := h
    exact ⟨[], prev, m, mem_of_headq_eq_some hm, by rw [← heq]⟩
  | cons c rest ih =>
    intro prev hit h
    simp only [searchFrom] at h
    cases hh : (reMatches re (c :: rest) prev).head? with
    | some m =>
      rw [hh] at h
      simp only [Option.some.injEq] at h
      exact ⟨c :: rest, prev, m, mem_of_headq_eq_some hh, by rw [← h]⟩
    | none =>
      rw [hh] at h
      simp only [Option.map_eq_some'] at h
      obtain ⟨hit', hrec, heq⟩ := h
      obtain ⟨t, pr, m, hm, hcaps⟩ := ih hrec
      exact ⟨t, pr, m, hm, by rw [← heq]; exact hcaps⟩

theorem getLastq_cons_isSome (d : α) (l : List α) : ((d :: l).getLast?).isSome = true := by
  induction l generalizing d with
  | nil => rfl
  | cons e t ih =>
    rw [List.getLast?_cons_cons]
    exact ih e

theorem nextPrev_cons (c : Char) (pre : List Char) (prev : Option Char) :
    nextPrev (c :: pre) prev = nextPrev pre (some c) := by
  cases pre with
  | nil => rfl
  | cons d pre' =>
    cases hg : (d :: pre').getLast? with
    | some x => simp [nextPrev, List.getLast?_cons_cons, hg]
    | none =>
      have := getLastq_cons_isSome d pre'
      rw [hg] at this
      simp at this

/-- If the pattern matches at some split point of the input, the
left-to-right scan of `searchFrom` succeeds. -/
theorem searchFrom_isSome_of_exists (re : RE) (pre t : List Char) (prev : Option Char)
    (hne : reMatches re t (nextPrev pre prev) ≠ []) :
    (searchFrom re (pre ++ t) prev).isSome = true := by
  induction pre generalizing prev with
  | nil =>
    have hne0 : reMatches re t prev ≠ [] := by simpa [nextPrev] using hne
    rw [List.nil_append]
    cases t with
    | nil =>
      simp only [searchFrom]
      cases hh : reMatches re [] prev with
      | nil => exact absurd hh hne0
      | cons x xs => simp [hh]
    | cons c r =>
      simp only [searchFrom]
      cases hh : (reMatches re (c :: r) prev).head? with
      | some m => simp [hh]
      | none =>
        exfalso
        apply hne0
        cases hr : reMatches re (c :: r) prev with
        | nil => rfl
        | cons x xs =>
          rw [hr] at hh
          simp at hh
  | cons c pre' ih =>
    have hne' : reMatches re t (nextPrev pre' (some c)) ≠ [] := by
      rwa [← nextPrev_cons c pre' prev]
    rw [List.cons_append]
    simp only [searchFrom]
    cases hh : (reMatches re (c :: (pre' ++ t)) prev).head? with
    | some m => simp [hh]
    | none =>
      simp only [hh]
      have hrec := ih (some c) hne'
      obtain ⟨x, hx⟩ := Option.isSome_iff_exists.mp hrec
      simp [hx]

/-- `scoreRE kw` matches at the front of
`kw ++ c0 :: c1 :: c2 :: r2` when `c0` is `:` or `-`, `c1` is
whitespace and `c2` is a digit. -/
theorem scoreRE_match_exists (kw : String) (pr : Option Char) (c0 c1 c2 : Char)
    (r2 : List Char) (hc0 : dashColon c0 = true) (hc1 : isSpaceChar c1 = true)
    (hc2 : isDigitC c2 = true) :
    reMatches (scoreRE kw) (kw.toList ++ c0 :: c1 :: c2 :: r2) pr ≠ [] := by
  have hpre : kw.toList.isPrefixOf (kw.toList ++ c0 :: c1 :: c2 :: r2) = true := by
    rw [List.isPrefixOf_iff_prefix]
    exact List.prefix_append _ _
  have hlit := mem_reMatches_lit_intro kw.toList (kw.toList ++ c0 :: c1 :: c2 :: r2) pr hpre
  rw [List.drop_left] at hlit
  have hws1 : 1 ≤ ((c1 :: c2 :: r2).takeWhile isSpaceChar).length := by
    rw [List.takeWhile_cons_of_pos hc1]
    simp
  have hdg : 1 ≤ ((c2 :: r2).takeWhile isDigitC).length := by
    rw [List.takeWhile_cons_of_pos hc2]
    simp
  have hfinal :=
    mem_reMatches_seq_intro hlit
      (mem_reMatches_seq_intro
        (mem_reMatches_repCls_intro isSpaceChar 0 0 (c0 :: c1 :: c2 :: r2)
          (nextPrev kw.toList pr) (Nat.le_refl 0) (Nat.zero_le _))
        (mem_reMatches_seq_intro
          (mem_reMatches_cls_intro dashColon c0 (c1 :: c2 :: r2) _ hc0)
          (mem_reMatches_seq_intro
            (mem_reMatches_repCls_intro isSpaceChar 0 1 (c1 :: c2 :: r2) _ (Nat.zero_le 1) hws1)
            (mem_reMatches_group_intro 1
              (mem_reMatches_repCls_intro isDigitC 1 1 (c2 :: r2) _ (Nat.le_refl 1) hdg)))))
  simp only [scoreRE]
  exact List.ne_nil_of_mem hfinal

theorem isSub_exists {sub l : List Char} (h : isSub sub l = true) :
    ∃ u v, l = u ++ sub ++ v := by
  induction l with
  | nil =>
    refine ⟨[], [], ?_⟩
    have hs : sub.isEmpty = true := h
    rw [List.isEmpty_iff] at hs
    simp [hs]
  | cons c rest ih =>
    rw [show isSub sub (c :: rest) = (sub.isPrefixOf (c :: rest) || isSub sub rest) from rfl,
      Bool.or_eq_true] at h
    rcases h with h | h
    · rw [List.isPrefixOf_iff_prefix] at h
      obtain ⟨t, ht⟩ := h
      exact ⟨[], t, by simp [← ht]⟩
    · obtain ⟨u, v, huv⟩ := ih h
      exact ⟨c :: u, v, by simp [huv]⟩

/-- On any lowercased text containing `"contact: 9876543210"`, the
`"act"` keyword search of `grab_score` matches (inside `"contact"`) and
returns a non-empty digit string. -/
theorem grab_score_act_nonempty {lower : String}
    (h : isSub ("contact: 9876543210".toList) lower.toList = true) :
    Nlp.grab_score lower "act" ≠ "" := by
  obtain ⟨u, v, huv⟩ := isSub_exists h
  have hpat : ("contact: 9876543210".toList : List Char) =
      ('c' :: 'o' :: 'n' :: 't' :: []) ++
        ("act".toList ++ ':' :: ' ' :: '9' ::
          ('8' :: '7' :: '6' :: '5' :: '4' :: '3' :: '2' :: '1' :: '0' :: [])) := by decide
  have hsplit : lower.toList =
      (u ++ ('c' :: 'o' :: 'n' :: 't' :: [])) ++
        ("act".toList ++ ':' :: ' ' :: '9' ::
          (('8' :: '7' :: '6' :: '5' :: '4' :: '3' :: '2' :: '1' :: '0' :: []) ++ v)) := by
    rw [huv, hpat]
    simp [List.append_assoc]
  have hmatch := scoreRE_match_exists "act"
    (nextPrev (u ++ ('c' :: 'o' :: 'n' :: 't' :: [])) none) ':' ' ' '9'
    (('8' :: '7' :: '6' :: '5' :: '4' :: '3' :: '2' :: '1' :: '0' :: []) ++ v)
    (by decide) (by decide) (by decide)
  have hsome := searchFrom_isSome_of_exists (scoreRE "act")
    (u ++ ('c' :: 'o' :: 'n' :: 't' :: []))
    ("act".toList ++ ':' :: ' ' :: '9' ::
      (('8' :: '7' :: '6' :: '5' :: '4' :: '3' :: '2' :: '1' :: '0' :: []) ++ v))
    none hmatch
  rw [← hsplit] at hsome
  obtain ⟨hit, hhit⟩ := Option.isSome_iff_exists.mp hsome
  have hhit' : searchS (scoreRE "act") lower = some hit := hhit
  obtain ⟨t, pr, m, hm, hcaps⟩ := searchFrom_caps hhit
  obtain ⟨d, hd, hlen, _⟩ := scoreRE_hit_caps hm
  have hget : capGet hit.caps 1 = d := by
    rw [hcaps, hd]
    simp [capGet]
  rw [show Nlp.grab_score lower "act" =
      (match searchS (scoreRE "act") lower with
       | some hh => String.mk (capGet hh.caps 1)
       | none => "") from rfl, hhit']
  intro hcon
  have hdnil : d = [] := by
    have := congrArg String.toList hcon
    rw [show (String.mk (capGet hit.caps 1)).toList = capGet hit.caps 1 from rfl, hget] at this
    simpa using this
  rw [hdnil] at hlen
  simp at hlen

/-- Claim C10: the test-score keyword search has no word boundary — on
any text whose lowercased form contains `"contact: 9876543210"` (which
has no ACT score), `parse_test_scores` fills `testScores.act` with a
non-empty digit string because `"act"` matches as a substring of
`"contact"`; on the text `"Contact: 9876543210"` itself the act score
becomes the digit string `"9876543210"` following the colon. -/
theorem C10_act_matches_inside_contact :
    (∀ (text : String) (s : Resume),
       strIn "contact: 9876543210" (pyLower text) = true →
       (Nlp.parse_test_scores text s).testScores.act ≠ "") ∧
    (Nlp.parse_test_scores "Contact: 9876543210" empty_resume_schema).testScores.act =
      "9876543210" := by
  refine ⟨?_, by decide⟩
  intro text s h
  have hg : Nlp.grab_score (pyLower text) "act" ≠ "" := grab_score_act_nonempty h
  show pyOr (Nlp.grab_score (pyLower text) "act") s.testScores.act ≠ ""
  rw [pyOr_of_ne _ hg]
  exact hg

/-- Witness for C10 applying the substring condition at the concrete
text `"Contact: 9876543210"`. -/
theorem C10_act_matches_inside_contact_witness :
    (Nlp.parse_test_scores "Contact: 9876543210" empty_resume_schema).testScores.act ≠ "" :=
  C10_act_matches_inside_contact.1 "Contact: 9876543210" empty_resume_schema (by decide)

end ResumeX
